import Mathlib

/-
Verification of the core data-transformation pipeline of the tobacco/mortality
dashboard (src/app.py): the record loaders, the grouped-mean aggregator, the
top-N selection, the linear trend forecaster, and the report assembler.

Modelling conventions:
- a spreadsheet cell that may be NaN is an Option ℚ (none = NaN/missing);
- pandas Series.mean skips NaN and yields NaN for an empty or all-NaN
  selection, modelled by meanOpt : List ℚ → Option ℚ applied to the list of
  non-missing values;
- pandas groupby(key).col.mean() emits one row per distinct key, keys sorted
  ascending (groupby default sort=True), each row carrying the skipna mean;
- DataFrame.nlargest(n, col) drops NaN rows, stable-sorts the rest descending
  by col (keep=first, i.e. a stable argsort) and takes the first n;
- np.polyfit(x, y, 1) raises on empty input, returns the ordinary
  least-squares fit when at least two distinct x are present, and returns the
  minimum-norm least-squares solution of the column-scaled Vandermonde system
  (with only a RankWarning) when all x coincide;
- a Python exception aborting the script is an Except error value.
-/

deriving instance DecidableEq for Except

namespace TobaccoApp

/-- Raw spreadsheet row, as read by pd.read_excel in src/app.py: the columns
actually consumed by the pipeline.  estimate may be a NaN cell. -/
structure RawRow where
  setting : String
  date : ℚ
  subgroup : String
  indicator_name : String
  estimate : Option ℚ
  iso3 : String
  wbincome2024 : String
  wbincome2023 : String
deriving DecidableEq, Repr

/-- Normalized record produced by the loaders after the rename
setting→country, date→year, subgroup→sex, estimate→value
(the app names the value column prevalence resp. mortality; structurally it
is the same renamed estimate, called value here as in the spec).  The columns
not mentioned in the rename (iso3, the two income columns, indicator_name)
pass through unchanged. -/
structure NormalizedRecord where
  country : String
  year : ℤ
  sex : String
  value : Option ℚ
  iso3 : String
  wbincome2024 : String
  wbincome2023 : String
  indicator_name : String
deriving DecidableEq, Repr

/-- Cast of the date column to integer (pandas .astype(int) truncates a
fractional value toward zero). -/
def castYear (d : ℚ) : ℤ :=
  if 0 ≤ d then ⌊d⌋ else ⌈d⌉

/-- Column renaming plus year cast applied to one surviving row
(src/app.py lines 24-32 and 39-47). -/
def normalizeRow (r : RawRow) : NormalizedRecord :=
  { country := r.setting
    year := castYear r.date
    sex := r.subgroup
    value := r.estimate
    iso3 := r.iso3
    wbincome2024 := r.wbincome2024
    wbincome2023 := r.wbincome2023
    indicator_name := r.indicator_name }

/-- Row filter of both loaders:
df["indicator_name"].isin(indicators) AND df["subgroup"].isin(["Male","Female"]). -/
def keepRow (indicators : List String) (r : RawRow) : Bool :=
  decide (r.indicator_name ∈ indicators) && (r.subgroup == "Male" || r.subgroup == "Female")

/-- load_tobacco (src/app.py lines 16-32): filter to the supplied indicator
set and to the Male/Female subgroups, then rename and cast. -/
def load_tobacco (rows : List RawRow) (indicators : List String) : List NormalizedRecord :=
  (rows.filter (keepRow indicators)).map normalizeRow

/-- Indicator list hardcoded inside load_mortality (src/app.py line 36). -/
def mortalityIndicators : List String :=
  ["2.A.05 Tracheal, bronchus, and lung cancer incidence (age standardized) (per 100 000 population)"]

/-- load_mortality (src/app.py lines 34-47): same shape as load_tobacco but
with the indicator list fixed internally; no indicator parameter exists. -/
def load_mortality (rows : List RawRow) : List NormalizedRecord :=
  (rows.filter (keepRow mortalityIndicators)).map normalizeRow

/-- One output row of a grouped mean: the group key and the (possibly NaN)
mean of the value column over the group. -/
structure AggregateResult (κ : Type) where
  group_key : κ
  mean_value : Option ℚ
deriving DecidableEq, Repr

/-- Values contributing to the group of key k: the non-missing values of the
records whose key matches (pandas mean skipna drops NaN cells). -/
def contrib {κ : Type} [DecidableEq κ] (key : NormalizedRecord → κ) (k : κ)
    (rs : List NormalizedRecord) : List ℚ :=
  (rs.filter (fun r => decide (key r = k))).filterMap (fun r => r.value)

/-- Mean of a list of present values; none models the NaN that pandas mean
returns on an empty or all-NaN selection. -/
def meanOpt (vs : List ℚ) : Option ℚ :=
  if vs.isEmpty then none else some (vs.sum / (vs.length : ℚ))

/-- Grouped mean, df.groupby(key).value.mean(): one row per distinct key
occurring in the input, rows ordered by the key order le (groupby sorts its
keys), each row holding the skipna mean of the group.  A group all of whose
values are NaN still gets a row, with NaN mean. -/
def meanBy {κ : Type} [DecidableEq κ] (le : κ → κ → Prop) [DecidableRel le]
    (key : NormalizedRecord → κ) (rs : List NormalizedRecord) : List (AggregateResult κ) :=
  ((rs.map key).dedup.insertionSort le).map (fun k => ⟨k, meanOpt (contrib key k rs)⟩)

/-- Lexicographic non-strict order on character lists, comparing code
points, as pandas orders string keys. -/
def lexLe : List Char → List Char → Bool
  | [], _ => true
  | _ :: _, [] => false
  | a :: as, b :: bs =>
    if a.val < b.val then true
    else if b.val < a.val then false
    else lexLe as bs

/-- Lexicographic strict order on character lists. -/
def lexLt : List Char → List Char → Bool
  | _, [] => false
  | [], _ :: _ => true
  | a :: as, b :: bs =>
    if a.val < b.val then true
    else if b.val < a.val then false
    else lexLt as bs

/-- Key order used by groupby("country") and the income-group groupbys. -/
def strLe (a b : String) : Prop := lexLe a.data b.data = true

instance : DecidableRel strLe := fun a b =>
  inferInstanceAs (Decidable (lexLe a.data b.data = true))

/-- Strict string order, for the first component of composite keys. -/
def strLt (a b : String) : Prop := lexLt a.data b.data = true

instance : DecidableRel strLt := fun a b =>
  inferInstanceAs (Decidable (lexLt a.data b.data = true))

/-- Lexicographic key order used by groupby(["country","iso3"]). -/
def pairLe (a b : String × String) : Prop := strLt a.1 b.1 ∨ (a.1 = b.1 ∧ strLe a.2 b.2)

instance : DecidableRel pairLe := fun a b =>
  inferInstanceAs (Decidable (strLt a.1 b.1 ∨ (a.1 = b.1 ∧ strLe a.2 b.2)))

/-- Lexicographic key order used by groupby(["year","sex"]). -/
def yearSexLe (a b : ℤ × String) : Prop := a.1 < b.1 ∨ (a.1 = b.1 ∧ strLe a.2 b.2)

instance : DecidableRel yearSexLe := fun a b =>
  inferInstanceAs (Decidable (a.1 < b.1 ∨ (a.1 = b.1 ∧ strLe a.2 b.2)))

/-- Numeric value of an aggregate row, defaulting the (never compared) NaN
case to 0; nlargest drops NaN rows before any comparison happens. -/
def aggVal {κ : Type} (a : AggregateResult κ) : ℚ :=
  a.mean_value.getD 0

/-- Comparison used by the stable descending argsort inside nlargest: larger
value first, ties broken by smaller original position first (keep=first). -/
def nlRel {κ : Type} (x y : ℕ × AggregateResult κ) : Prop :=
  aggVal y.2 < aggVal x.2 ∨ (aggVal y.2 = aggVal x.2 ∧ x.1 ≤ y.1)

instance {κ : Type} : DecidableRel (nlRel (κ := κ)) := fun x y =>
  inferInstanceAs (Decidable (aggVal y.2 < aggVal x.2 ∨ (aggVal y.2 = aggVal x.2 ∧ x.1 ≤ y.1)))

instance {κ : Type} : IsTotal (ℕ × AggregateResult κ) nlRel where
  total x y := by
    rcases lt_trichotomy (aggVal x.2) (aggVal y.2) with h | h | h
    · exact Or.inr (Or.inl h)
    · rcases Nat.le_total x.1 y.1 with hn | hn
      · exact Or.inl (Or.inr ⟨h.symm, hn⟩)
      · exact Or.inr (Or.inr ⟨h, hn⟩)
    · exact Or.inl (Or.inl h)

instance {κ : Type} : IsTrans (ℕ × AggregateResult κ) nlRel where
  trans x y z hxy hyz := by
    rcases hxy with h1 | ⟨e1, n1⟩
    · rcases hyz with h2 | ⟨e2, n2⟩
      · exact Or.inl (h2.trans h1)
      · exact Or.inl (e2 ▸ h1)
    · rcases hyz with h2 | ⟨e2, n2⟩
      · exact Or.inl (e1 ▸ h2)
      · exact Or.inr ⟨e2.trans e1, n1.trans n2⟩

/-- Rows whose sort column is not NaN; nlargest silently drops the others. -/
def definedAggs {κ : Type} (aggs : List (AggregateResult κ)) : List (AggregateResult κ) :=
  aggs.filter (fun a => a.mean_value.isSome)

/-- The stable descending argsort underlying nlargest, acting on
position-tagged rows. -/
def nlSorted {κ : Type} (aggs : List (AggregateResult κ)) : List (ℕ × AggregateResult κ) :=
  (definedAggs aggs).enum.insertionSort nlRel

/-- DataFrame.nlargest(n, col) (src/app.py lines 161-165 and 194-198): drop
NaN rows, stable-sort descending by col, take the first n. -/
def nlargest {κ : Type} (n : ℕ) (aggs : List (AggregateResult κ)) : List (AggregateResult κ) :=
  ((nlSorted aggs).take n).map Prod.snd

/-- Failure modes of np.polyfit as invoked by the app: TypeError on an empty
vector; all-equal x equal to 0 makes the column scaling divide by zero and
the returned coefficients NaN. -/
inductive PolyfitError
  | emptyVector
  | nanCoefficients
  | nanInput
deriving DecidableEq, Repr

/-- Sum of the x coordinates (years) of a series, in ℚ. -/
def Sx (pts : List (ℤ × ℚ)) : ℚ := (pts.map (fun p => (p.1 : ℚ))).sum

/-- Sum of the y coordinates (values) of a series. -/
def Sy (pts : List (ℤ × ℚ)) : ℚ := (pts.map (fun p => p.2)).sum

/-- Sum of squared x coordinates. -/
def Sxx (pts : List (ℤ × ℚ)) : ℚ := (pts.map (fun p => (p.1 : ℚ) ^ 2)).sum

/-- Sum of the products x·y. -/
def Sxy (pts : List (ℤ × ℚ)) : ℚ := (pts.map (fun p => (p.1 : ℚ) * p.2)).sum

/-- Number of points of the series, in ℚ. -/
def nPts (pts : List (ℤ × ℚ)) : ℚ := (pts.length : ℚ)

/-- Slope of the ordinary least-squares line through the series (the unique
minimizer once two distinct years are present). -/
def olsSlope (pts : List (ℤ × ℚ)) : ℚ :=
  (nPts pts * Sxy pts - Sx pts * Sy pts) / (nPts pts * Sxx pts - Sx pts ^ 2)

/-- Intercept of the ordinary least-squares line through the series. -/
def olsIntercept (pts : List (ℤ × ℚ)) : ℚ :=
  (Sy pts - olsSlope pts * Sx pts) / nPts pts

/-- Number of distinct years of the series. -/
def distinctYearCount (pts : List (ℤ × ℚ)) : ℕ :=
  (pts.map Prod.fst).dedup.length

/-- np.polyfit(x, y, 1) on NaN-free data (src/app.py lines 246 and 307).
Empty input raises TypeError.  With two distinct years present the result is
the full-rank least-squares fit.  Otherwise all points share one year x and
numpy, after scaling each Vandermonde column by its norm, returns the
minimum-norm solution, which works out to slope ybar/(2x) and intercept
ybar/2 (RankWarning only, no exception); for x = 0 the scaling divides by
zero and the coefficients are NaN. -/
def polyfit1 (pts : List (ℤ × ℚ)) : Except PolyfitError (ℚ × ℚ) :=
  match pts with
  | [] => .error .emptyVector
  | p :: _ =>
    if 2 ≤ distinctYearCount pts then
      .ok (olsSlope pts, olsIntercept pts)
    else if p.1 = 0 then
      .error .nanCoefficients
    else
      .ok ((Sy pts / nPts pts) / (2 * (p.1 : ℚ)), (Sy pts / nPts pts) / 2)

/-- Forecast step of the app: fit once, then evaluate m*yr + b at each
requested future year in order (the inner for-yr loop, src/app.py 247-250). -/
def forecast (pts : List (ℤ × ℚ)) (futureYears : List ℤ) :
    Except PolyfitError (List (ℤ × ℚ)) :=
  (polyfit1 pts).map (fun mb => futureYears.map (fun yr => (yr, mb.1 * (yr : ℚ) + mb.2)))

/-- Sum of squared residuals of the line y = m*x + b over the series; the
quantity np.polyfit minimizes. -/
def SSE (m b : ℚ) (pts : List (ℤ × ℚ)) : ℚ :=
  (pts.map (fun p => (p.2 - (m * (p.1 : ℚ) + b)) ^ 2)).sum

/-- np.polyfit applied to a series whose values come straight from groupby
means and may hence be NaN: the lstsq routine inside numpy does not converge
on NaN input and the call aborts. -/
def polyfitOpt (pts : List (ℤ × Option ℚ)) : Except PolyfitError (ℚ × ℚ) :=
  if pts.isEmpty then .error .emptyVector
  else if pts.any (fun p => p.2.isNone) then .error .nanInput
  else polyfit1 (pts.filterMap (fun p => p.2.map (fun v => (p.1, v))))

/-- Per-sex series extraction df_sex = prev_ts[prev_ts.sex == sex] followed
by taking the year and value columns (src/app.py line 244). -/
def seriesFor (sex : String) (ts : List (AggregateResult (ℤ × String))) :
    List (ℤ × Option ℚ)  :=
  (ts.filter (fun g => g.group_key.2 == sex)).map (fun g => (g.group_key.1, g.mean_value))

/-- The two future years hardcoded in the app (src/app.py line 241). -/
def yearsFuture : List ℤ := [2025, 2030]

/-- The per-sex forecast loop (src/app.py lines 243-250 and 305-311): for
each sex in order fit and extrapolate, appending the points; any exception
aborts the whole loop, discarding every series. -/
def forecastLoop (fy : List ℤ) :
    List (String × List (ℤ × Option ℚ)) → Except PolyfitError (List (String × ℤ × ℚ))
  | [] => .ok []
  | (sex, pts) :: rest => do
    let mb ← polyfitOpt pts
    let others ← forecastLoop fy rest
    .ok ((fy.map (fun (yr : ℤ) => (sex, yr, mb.1 * (yr : ℚ) + mb.2))) ++ others)

/-- Outputs the script hands to the (out-of-scope) chart layer, one field per
computation in src/app.py sections 4 and 5. -/
structure Report where
  male_prev : Option ℚ
  female_prev : Option ℚ
  male_mort : Option ℚ
  female_mort : Option ℚ
  map_df : List (AggregateResult (String × String))
  grp_prev : List (AggregateResult String)
  grp_mor : List (AggregateResult String)
  top_prev : List (AggregateResult String)
  top_mor : List (AggregateResult String)
  prev_ts : List (AggregateResult (ℤ × String))
  mort_ts : List (AggregateResult (ℤ × String))
  prev_forecast : Except PolyfitError (List (String × ℤ × ℚ))
  mort_forecast : Except PolyfitError (List (String × ℤ × ℚ))

/-- Report assembler: the straight-line script body for a selected country
(src/app.py sections 4-5).  tob and mor are the country-filtered frames; the
map aggregate, the income-group aggregates and both top-5 rankings are
computed from the full datasets df_tob and df_mor. -/
def assemble (country : String) (dfTob dfMor : List NormalizedRecord) : Report :=
  let tob := dfTob.filter (fun r => r.country == country)
  let mor := dfMor.filter (fun r => r.country == country)
  let prevTs := meanBy yearSexLe (fun r => (r.year, r.sex)) tob
  let mortTs := meanBy yearSexLe (fun r => (r.year, r.sex)) mor
  { male_prev := meanOpt ((tob.filter (fun r => r.sex == "Male")).filterMap (fun r => r.value))
    female_prev := meanOpt ((tob.filter (fun r => r.sex == "Female")).filterMap (fun r => r.value))
    male_mort := meanOpt ((mor.filter (fun r => r.sex == "Male")).filterMap (fun r => r.value))
    female_mort := meanOpt ((mor.filter (fun r => r.sex == "Female")).filterMap (fun r => r.value))
    map_df := meanBy pairLe (fun r => (r.country, r.iso3)) dfMor
    grp_prev := meanBy strLe (fun r => r.wbincome2024) dfTob
    grp_mor := meanBy strLe (fun r => r.wbincome2023) dfMor
    top_prev := nlargest 5 (meanBy strLe (fun r => r.country) dfTob)
    top_mor := nlargest 5 (meanBy strLe (fun r => r.country) dfMor)
    prev_ts := prevTs
    mort_ts := mortTs
    prev_forecast := forecastLoop yearsFuture
      [("Male", seriesFor "Male" prevTs), ("Female", seriesFor "Female" prevTs)]
    mort_forecast := forecastLoop yearsFuture
      [("Male", seriesFor "Male" mortTs), ("Female", seriesFor "Female" mortTs)] }

/-! Characterizations of the loaders and the grouped mean. -/

lemma keepRow_eq_true (indicators : List String) (r : RawRow) :
    keepRow indicators r = true ↔
      r.indicator_name ∈ indicators ∧ (r.subgroup = "Male" ∨ r.subgroup = "Female") := by
  simp [keepRow]

lemma mem_load_tobacco {rows : List RawRow} {indicators : List String} {rec : NormalizedRecord} :
    rec ∈ load_tobacco rows indicators ↔
      ∃ r ∈ rows, (r.indicator_name ∈ indicators ∧ (r.subgroup = "Male" ∨ r.subgroup = "Female"))
        ∧ rec = normalizeRow r := by
  simp only [load_tobacco, List.mem_map, List.mem_filter, keepRow_eq_true]
  constructor
  · rintro ⟨r, ⟨hr, hk⟩, rfl⟩
    exact ⟨r, hr, hk, rfl⟩
  · rintro ⟨r, hr, hk, rfl⟩
    exact ⟨r, ⟨hr, hk⟩, rfl⟩

lemma mem_load_mortality {rows : List RawRow} {rec : NormalizedRecord} :
    rec ∈ load_mortality rows ↔
      ∃ r ∈ rows, (r.indicator_name ∈ mortalityIndicators
          ∧ (r.subgroup = "Male" ∨ r.subgroup = "Female"))
        ∧ rec = normalizeRow r :=
  mem_load_tobacco

lemma mem_meanBy_iff {κ : Type} [DecidableEq κ] (le : κ → κ → Prop) [DecidableRel le]
    (key : NormalizedRecord → κ) (rs : List NormalizedRecord) (g : AggregateResult κ) :
    g ∈ meanBy le key rs ↔
      ∃ k, k ∈ rs.map key ∧ g = ⟨k, meanOpt (contrib key k rs)⟩ := by
  simp only [meanBy, List.mem_map, List.mem_insertionSort, List.mem_dedup]
  constructor
  · rintro ⟨k, hk, rfl⟩
    exact ⟨k, hk, rfl⟩
  · rintro ⟨k, hk, rfl⟩
    exact ⟨k, hk, rfl⟩

lemma meanOpt_of_ne_nil {vs : List ℚ} (h : vs ≠ []) :
    meanOpt vs = some (vs.sum / (vs.length : ℚ)) := by
  simp [meanOpt, h]

lemma meanOpt_eq_none_iff {vs : List ℚ} : meanOpt vs = none ↔ vs = [] := by
  cases vs <;> simp [meanOpt]

/-! Claim theorems: loaders. -/

/-- C3: for every valid (source, indicator set), every record produced by the
loader has sex Male or Female and an indicator_name from the supplied set;
fields are renamed setting→country, date→year, subgroup→sex, estimate→value
with year cast to integer; every output record arises from an input row this
way, and no record with any other subgroup ever appears. -/
theorem c3_loader_normalizes (rows : List RawRow) (indicators : List String) :
    (∀ rec ∈ load_tobacco rows indicators,
        (rec.sex = "Male" ∨ rec.sex = "Female") ∧ rec.indicator_name ∈ indicators)
    ∧ (∀ rec ∈ load_mortality rows, rec.sex = "Male" ∨ rec.sex = "Female")
    ∧ (∀ r : RawRow, (normalizeRow r).country = r.setting
        ∧ (normalizeRow r).year = castYear r.date
        ∧ (normalizeRow r).sex = r.subgroup
        ∧ (normalizeRow r).value = r.estimate)
    ∧ (∀ rec ∈ load_tobacco rows indicators, ∃ r ∈ rows, rec = normalizeRow r) := by
  refine ⟨?_, ?_, ?_, ?_⟩
  · intro rec hrec
    obtain ⟨r, _, ⟨hind, hsub⟩, rfl⟩ := mem_load_tobacco.mp hrec
    exact ⟨hsub, hind⟩
  · intro rec hrec
    obtain ⟨r, _, ⟨_, hsub⟩, rfl⟩ := mem_load_mortality.mp hrec
    exact hsub
  · intro r
    exact ⟨rfl, rfl, rfl, rfl⟩
  · intro rec hrec
    obtain ⟨r, hr, _, rfl⟩ := mem_load_tobacco.mp hrec
    exact ⟨r, hr, rfl⟩

/-- Raw row used to instantiate the loader claims. -/
def sampleRow : RawRow :=
  { setting := "Lebanon"
    date := 2018
    subgroup := "Male"
    indicator_name := "Estimate of current tobacco use prevalence (age-standardized) (%)"
    estimate := some 20
    iso3 := "LBN"
    wbincome2024 := "Middle"
    wbincome2023 := "Middle" }

theorem c3_loader_normalizes_witness :
    ((normalizeRow sampleRow).sex = "Male" ∨ (normalizeRow sampleRow).sex = "Female")
    ∧ (normalizeRow sampleRow).indicator_name ∈
        ["Estimate of current tobacco use prevalence (age-standardized) (%)"] :=
  (c3_loader_normalizes [sampleRow]
      ["Estimate of current tobacco use prevalence (age-standardized) (%)"]).1
    (normalizeRow sampleRow) (by decide)

/-- C10: load_mortality has no indicator parameter; it filters to the single
hardcoded indicator, so every record it outputs carries exactly that
indicator_name. -/
theorem c10_mortality_indicator_fixed (rows : List RawRow) :
    ∀ rec ∈ load_mortality rows,
      rec.indicator_name =
        "2.A.05 Tracheal, bronchus, and lung cancer incidence (age standardized) (per 100 000 population)" := by
  intro rec hrec
  obtain ⟨r, _, ⟨hind, _⟩, rfl⟩ := mem_load_mortality.mp hrec
  simpa [mortalityIndicators] using hind

/-- Raw row carrying the hardcoded mortality indicator. -/
def sampleMortRow : RawRow :=
  { setting := "Lebanon"
    date := 2019
    subgroup := "Female"
    indicator_name := "2.A.05 Tracheal, bronchus, and lung cancer incidence (age standardized) (per 100 000 population)"
    estimate := some 30
    iso3 := "LBN"
    wbincome2024 := "Middle"
    wbincome2023 := "Middle" }

theorem c10_mortality_indicator_fixed_witness :
    (normalizeRow sampleMortRow).indicator_name =
      "2.A.05 Tracheal, bronchus, and lung cancer incidence (age standardized) (per 100 000 population)" :=
  c10_mortality_indicator_fixed [sampleMortRow] (normalizeRow sampleMortRow) (by decide)

/-! Claim theorems: grouped means. -/

/-- C1: in every meanBy output, each group with at least one contributing
(non-missing) value carries exactly the arithmetic mean of the input values
whose key matches (missing values excluded from numerator and denominator),
and the output has exactly one group per distinct key present in the input:
no data-driven group is invented or dropped. -/
theorem c1_meanBy_mean_and_groups {κ : Type} [DecidableEq κ] (le : κ → κ → Prop)
    [DecidableRel le] (key : NormalizedRecord → κ) (rs : List NormalizedRecord) :
    (∀ g ∈ meanBy le key rs, contrib key g.group_key rs ≠ [] →
        g.mean_value = some ((contrib key g.group_key rs).sum
          / ((contrib key g.group_key rs).length : ℚ)))
    ∧ (meanBy le key rs).length = (rs.map key).dedup.length
    ∧ (∀ k : κ, (∃ g ∈ meanBy le key rs, g.group_key = k) ↔ k ∈ rs.map key) := by
  refine ⟨?_, ?_, ?_⟩
  · intro g hg hne
    obtain ⟨k, _, rfl⟩ := (mem_meanBy_iff le key rs g).mp hg
    exact meanOpt_of_ne_nil hne
  · simp [meanBy, List.length_insertionSort]
  · intro k
    constructor
    · rintro ⟨g, hg, rfl⟩
      obtain ⟨k, hk, rfl⟩ := (mem_meanBy_iff le key rs g).mp hg
      exact hk
    · intro hk
      exact ⟨⟨k, meanOpt (contrib key k rs)⟩,
        (mem_meanBy_iff le key rs _).mpr ⟨k, hk, rfl⟩, rfl⟩

/-- Record used to instantiate the aggregation claims. -/
def recA : NormalizedRecord :=
  { country := "A"
    year := 2020
    sex := "Male"
    value := some 3
    iso3 := "AAA"
    wbincome2024 := "High"
    wbincome2023 := "High"
    indicator_name := "T" }

theorem c1_meanBy_mean_and_groups_witness :
    (⟨"A", meanOpt (contrib (fun r => r.country) "A" [recA])⟩ : AggregateResult String)
        ∈ meanBy strLe (fun r => r.country) [recA]
    ∧ contrib (fun r => r.country) "A" [recA] ≠ []
    ∧ (⟨"A", meanOpt (contrib (fun r => r.country) "A" [recA])⟩
          : AggregateResult String).mean_value
        = some ((contrib (fun r => r.country) "A" [recA]).sum
            / ((contrib (fun r => r.country) "A" [recA]).length : ℚ)) := by
  have hmem : (⟨"A", meanOpt (contrib (fun r => r.country) "A" [recA])⟩ : AggregateResult String)
      ∈ meanBy strLe (fun r => r.country) [recA] :=
    List.mem_map_of_mem _ (by decide)
  exact ⟨hmem, by decide,
    (c1_meanBy_mean_and_groups strLe (fun r => r.country) [recA]).1 _ hmem (by decide)⟩

/-- Record whose value cell is NaN, used to exhibit a NaN aggregate row. -/
def recNaN : NormalizedRecord :=
  { country := "A"
    year := 2020
    sex := "Male"
    value := none
    iso3 := "AAA"
    wbincome2024 := "High"
    wbincome2023 := "High"
    indicator_name := "T" }

/-- C5 fails on the code: grouping a single record whose value is missing,
the group still appears in the output, as a row whose mean_value is
NaN (none) - pandas groupby.mean emits NaN rows for all-NaN groups. -/
theorem c5_counterexample :
    meanBy strLe (fun r => r.country) [recNaN] = [⟨"A", none⟩]
    ∧ ¬ (∀ g ∈ meanBy strLe (fun r => r.country) [recNaN], g.mean_value ≠ none) := by
  exact ⟨by decide, by decide⟩

/-- C5 amended: a group with zero contributing values is not omitted; it
appears in the meanBy output with an undefined (NaN/none) mean_value, and
mean_value is undefined exactly for such groups. -/
theorem c5_amended_nan_rows {κ : Type} [DecidableEq κ] (le : κ → κ → Prop)
    [DecidableRel le] (key : NormalizedRecord → κ) (rs : List NormalizedRecord) :
    ∀ g ∈ meanBy le key rs,
      (g.mean_value = none ↔ contrib key g.group_key rs = []) := by
  intro g hg
  obtain ⟨k, _, rfl⟩ := (mem_meanBy_iff le key rs g).mp hg
  exact meanOpt_eq_none_iff

theorem c5_amended_nan_rows_witness :
    (⟨"A", meanOpt (contrib (fun r => r.country) "A" [recNaN])⟩ : AggregateResult String)
        ∈ meanBy strLe (fun r => r.country) [recNaN]
    ∧ ((⟨"A", meanOpt (contrib (fun r => r.country) "A" [recNaN])⟩
          : AggregateResult String).mean_value = none
        ↔ contrib (fun r => r.country) "A" [recNaN] = []) :=
  ⟨by decide, c5_amended_nan_rows strLe (fun r => r.country) [recNaN] _ (by decide)⟩

/-! Claim theorems: report assembler scalars and map aggregate. -/

/-- Country-and-sex slice of a dataset, value column only (non-missing
entries), as the KPI computation selects it. -/
def kpiSlice (df : List NormalizedRecord) (country sex : String) : List ℚ :=
  ((df.filter (fun r => r.country == country)).filter (fun r => r.sex == sex)).filterMap
    (fun r => r.value)

/-- C8: each KPI scalar is the skipna mean of its country-and-sex slice, and
when the slice contributes no values the KPI is undefined (none), never a
fabricated zero. -/
theorem c8_kpi_mean_or_undefined (dfTob dfMor : List NormalizedRecord) (country : String) :
    ((assemble country dfTob dfMor).male_prev = meanOpt (kpiSlice dfTob country "Male")
      ∧ (assemble country dfTob dfMor).female_prev = meanOpt (kpiSlice dfTob country "Female")
      ∧ (assemble country dfTob dfMor).male_mort = meanOpt (kpiSlice dfMor country "Male")
      ∧ (assemble country dfTob dfMor).female_mort = meanOpt (kpiSlice dfMor country "Female"))
    ∧ (kpiSlice dfTob country "Male" = [] →
        (assemble country dfTob dfMor).male_prev = none
        ∧ (assemble country dfTob dfMor).male_prev ≠ some 0) := by
  refine ⟨⟨rfl, rfl, rfl, rfl⟩, ?_⟩
  intro h
  have hnone : (assemble country dfTob dfMor).male_prev = none := by
    show meanOpt (kpiSlice dfTob country "Male") = none
    rw [h]
    rfl
  exact ⟨hnone, by rw [hnone]; exact fun hc => Option.noConfusion hc⟩

theorem c8_kpi_mean_or_undefined_witness :
    kpiSlice [recNaN] "A" "Male" = []
    ∧ (assemble "A" [recNaN] []).male_prev = none
    ∧ (assemble "A" [recNaN] []).male_prev ≠ some 0 := by
  have h : kpiSlice [recNaN] "A" "Male" = [] := by decide
  exact ⟨h, ((c8_kpi_mean_or_undefined [recNaN] [] "A").2 h).1,
    ((c8_kpi_mean_or_undefined [recNaN] [] "A").2 h).2⟩

/-! Least-squares infrastructure for the forecaster claims. -/

lemma Sx_nil : Sx [] = 0 := rfl

lemma Sx_cons (p : ℤ × ℚ) (t : List (ℤ × ℚ)) : Sx (p :: t) = (p.1 : ℚ) + Sx t := by
  simp [Sx]

lemma Sy_nil : Sy [] = 0 := rfl

lemma Sy_cons (p : ℤ × ℚ) (t : List (ℤ × ℚ)) : Sy (p :: t) = p.2 + Sy t := by
  simp [Sy]

lemma Sxx_nil : Sxx [] = 0 := rfl

lemma Sxx_cons (p : ℤ × ℚ) (t : List (ℤ × ℚ)) : Sxx (p :: t) = (p.1 : ℚ) ^ 2 + Sxx t := by
  simp [Sxx]

lemma Sxy_nil : Sxy [] = 0 := rfl

lemma Sxy_cons (p : ℤ × ℚ) (t : List (ℤ × ℚ)) : Sxy (p :: t) = (p.1 : ℚ) * p.2 + Sxy t := by
  simp [Sxy]

lemma nPts_nil : nPts [] = 0 := rfl

lemma nPts_cons (p : ℤ × ℚ) (t : List (ℤ × ℚ)) : nPts (p :: t) = nPts t + 1 := by
  simp [nPts]

lemma SSE_nil (m b : ℚ) : SSE m b [] = 0 := rfl

lemma SSE_cons (m b : ℚ) (p : ℤ × ℚ) (t : List (ℤ × ℚ)) :
    SSE m b (p :: t) = (p.2 - (m * (p.1 : ℚ) + b)) ^ 2 + SSE m b t := by
  simp [SSE]

lemma residSum (m b : ℚ) (pts : List (ℤ × ℚ)) :
    (pts.map (fun p => p.2 - (m * (p.1 : ℚ) + b))).sum
      = Sy pts - m * Sx pts - nPts pts * b := by
  induction pts with
  | nil => simp [Sy_nil, Sx_nil, nPts_nil]
  | cons p t ih =>
    simp only [List.map_cons, List.sum_cons, ih, Sy_cons, Sx_cons, nPts_cons]
    ring

lemma xresidSum (m b : ℚ) (pts : List (ℤ × ℚ)) :
    (pts.map (fun p => (p.1 : ℚ) * (p.2 - (m * (p.1 : ℚ) + b)))).sum
      = Sxy pts - m * Sxx pts - b * Sx pts := by
  induction pts with
  | nil => simp [Sxy_nil, Sxx_nil, Sx_nil]
  | cons p t ih =>
    simp only [List.map_cons, List.sum_cons, ih, Sxy_cons, Sxx_cons, Sx_cons]
    ring

lemma SSE_decomp (m b mp bp : ℚ) (pts : List (ℤ × ℚ)) :
    SSE mp bp pts = SSE m b pts
      + 2 * (m - mp) * (pts.map (fun p => (p.1 : ℚ) * (p.2 - (m * (p.1 : ℚ) + b)))).sum
      + 2 * (b - bp) * (pts.map (fun p => p.2 - (m * (p.1 : ℚ) + b))).sum
      + (pts.map (fun p => ((m - mp) * (p.1 : ℚ) + (b - bp)) ^ 2)).sum := by
  induction pts with
  | nil => simp [SSE_nil]
  | cons p t ih =>
    simp only [List.map_cons, List.sum_cons, SSE_cons, ih]
    ring

lemma sum_sq_dev (c : ℚ) (pts : List (ℤ × ℚ)) :
    (pts.map (fun p => ((p.1 : ℚ) - c) ^ 2)).sum
      = Sxx pts - 2 * c * Sx pts + nPts pts * c ^ 2 := by
  induction pts with
  | nil => simp [Sxx_nil, Sx_nil, nPts_nil]
  | cons p t ih =>
    simp only [List.map_cons, List.sum_cons, ih, Sxx_cons, Sx_cons, nPts_cons]
    ring

lemma pts_ne_nil_of_two_years {pts : List (ℤ × ℚ)} (h2 : 2 ≤ distinctYearCount pts) :
    pts ≠ [] := by
  rintro rfl
  simp [distinctYearCount] at h2

lemma nPts_pos {pts : List (ℤ × ℚ)} (h : pts ≠ []) : 0 < nPts pts := by
  have : 0 < pts.length := List.length_pos.mpr h
  simpa [nPts] using Nat.cast_pos.mpr this

lemma two_distinct_years {pts : List (ℤ × ℚ)} (h2 : 2 ≤ distinctYearCount pts) :
    ∃ x₁ ∈ pts.map Prod.fst, ∃ x₂ ∈ pts.map Prod.fst, x₁ ≠ x₂ := by
  rcases hd : (pts.map Prod.fst).dedup with _ | ⟨a, _ | ⟨b, t⟩⟩
  · rw [distinctYearCount, hd] at h2
    simp at h2
  · rw [distinctYearCount, hd] at h2
    simp at h2
  · have hnd := List.nodup_dedup (pts.map Prod.fst)
    rw [hd] at hnd
    have hab : a ≠ b := by
      intro h
      exact (List.nodup_cons.mp hnd).1 (h ▸ List.mem_cons_self b t)
    have ha : a ∈ pts.map Prod.fst := List.mem_dedup.mp (hd ▸ List.mem_cons_self a (b :: t))
    have hb : b ∈ pts.map Prod.fst :=
      List.mem_dedup.mp (hd ▸ List.mem_cons_of_mem a (List.mem_cons_self b t))
    exact ⟨a, ha, b, hb, hab⟩

lemma D_pos {pts : List (ℤ × ℚ)} (h2 : 2 ≤ distinctYearCount pts) :
    0 < nPts pts * Sxx pts - Sx pts ^ 2 := by
  obtain ⟨x₁, hx₁, x₂, hx₂, hne⟩ := two_distinct_years h2
  have hn : 0 < nPts pts := nPts_pos (pts_ne_nil_of_two_years h2)
  set c : ℚ := Sx pts / nPts pts with hc
  have hkey : nPts pts * (pts.map (fun p => ((p.1 : ℚ) - c) ^ 2)).sum
      = nPts pts * Sxx pts - Sx pts ^ 2 := by
    rw [sum_sq_dev, hc]
    field_simp
    ring
  have hone : ∃ x ∈ pts.map Prod.fst, ((x : ℚ) - c) ≠ 0 := by
    by_cases h1 : ((x₁ : ℚ) - c) = 0
    · refine ⟨x₂, hx₂, fun h2' => hne ?_⟩
      have : (x₁ : ℚ) = (x₂ : ℚ) := by
        rw [sub_eq_zero.mp h1, sub_eq_zero.mp h2']
      exact_mod_cast this
    · exact ⟨x₁, hx₁, h1⟩
  have hT : 0 < (pts.map (fun p => ((p.1 : ℚ) - c) ^ 2)).sum := by
    obtain ⟨x, hx, hxc⟩ := hone
    obtain ⟨p, hp, rfl⟩ := List.mem_map.mp hx
    have hmem : ((p.1 : ℚ) - c) ^ 2 ∈ pts.map (fun p => ((p.1 : ℚ) - c) ^ 2) :=
      List.mem_map_of_mem _ hp
    have hnonneg : ∀ y ∈ pts.map (fun p => ((p.1 : ℚ) - c) ^ 2), 0 ≤ y := by
      intro y hy
      obtain ⟨q, _, rfl⟩ := List.mem_map.mp hy
      positivity
    have hle := List.single_le_sum hnonneg _ hmem
    have hpos : 0 < ((p.1 : ℚ) - c) ^ 2 := by positivity
    linarith
  nlinarith [mul_pos hn hT]

lemma normal_eq_const {pts : List (ℤ × ℚ)} (h2 : 2 ≤ distinctYearCount pts) :
    Sy pts - olsSlope pts * Sx pts - nPts pts * olsIntercept pts = 0 := by
  have hn := (nPts_pos (pts_ne_nil_of_two_years h2)).ne'
  rw [olsIntercept]
  field_simp

lemma normal_eq_linear {pts : List (ℤ × ℚ)} (h2 : 2 ≤ distinctYearCount pts) :
    Sxy pts - olsSlope pts * Sxx pts - olsIntercept pts * Sx pts = 0 := by
  have hn := (nPts_pos (pts_ne_nil_of_two_years h2)).ne'
  have hD := (D_pos h2).ne'
  rw [olsIntercept, olsSlope]
  field_simp
  ring

lemma ols_argmin {pts : List (ℤ × ℚ)} (h2 : 2 ≤ distinctYearCount pts) (mp bp : ℚ) :
    SSE (olsSlope pts) (olsIntercept pts) pts ≤ SSE mp bp pts := by
  have hdec := SSE_decomp (olsSlope pts) (olsIntercept pts) mp bp pts
  rw [xresidSum, residSum, normal_eq_linear h2, normal_eq_const h2] at hdec
  have hS : 0 ≤ (pts.map
      (fun p => ((olsSlope pts - mp) * (p.1 : ℚ) + (olsIntercept pts - bp)) ^ 2)).sum := by
    apply List.sum_nonneg
    intro y hy
    obtain ⟨q, _, rfl⟩ := List.mem_map.mp hy
    positivity
  linarith [hdec]

lemma polyfit1_full_rank {pts : List (ℤ × ℚ)} (h2 : 2 ≤ distinctYearCount pts) :
    polyfit1 pts = .ok (olsSlope pts, olsIntercept pts) := by
  cases pts with
  | nil => simp [distinctYearCount] at h2
  | cons p t => simp [polyfit1, h2]

lemma dedup_const {l : List ℤ} {x : ℤ} (hne : l ≠ []) (h : ∀ y ∈ l, y = x) :
    l.dedup = [x] := by
  induction l with
  | nil => exact absurd rfl hne
  | cons a t ih =>
    have ha : a = x := h a (List.mem_cons_self a t)
    cases t with
    | nil => simp [ha]
    | cons b t2 =>
      have ht : (b :: t2).dedup = [x] :=
        ih (by simp) (fun y hy => h y (List.mem_cons_of_mem a hy))
      have hb : b = x := h b (List.mem_cons_of_mem a (List.mem_cons_self b t2))
      have hmem : a ∈ b :: t2 := by
        rw [ha, ← hb]
        exact List.mem_cons_self b t2
      rw [List.dedup_cons_of_mem hmem, ht]

/-! Infrastructure for the top-N selection claim. -/

lemma nlSorted_perm {κ : Type} (aggs : List (AggregateResult κ)) :
    List.Perm (nlSorted aggs) (definedAggs aggs).enum :=
  List.perm_insertionSort nlRel _

lemma nlSorted_pairwise {κ : Type} (aggs : List (AggregateResult κ)) :
    List.Pairwise nlRel (nlSorted aggs) :=
  List.sorted_insertionSort nlRel _

lemma exists_enumFrom_of_mem {α : Type} {l : List α} {b : α} :
    b ∈ l → ∀ n : ℕ, ∃ i, (i, b) ∈ l.enumFrom n := by
  induction l with
  | nil => intro h; cases h
  | cons a t ih =>
    intro h n
    rcases List.mem_cons.mp h with rfl | ht
    · exact ⟨n, List.mem_cons_self _ _⟩
    · obtain ⟨i, hi⟩ := ih ht (n + 1)
      exact ⟨i, List.mem_cons_of_mem _ hi⟩

lemma nlSorted_cross {κ : Type} (n : ℕ) (aggs : List (AggregateResult κ)) :
    ∀ x ∈ (nlSorted aggs).take n, ∀ y ∈ (nlSorted aggs).drop n, nlRel x y := by
  have hs : List.Pairwise nlRel ((nlSorted aggs).take n ++ (nlSorted aggs).drop n) := by
    rw [List.take_append_drop]
    exact nlSorted_pairwise aggs
  exact (List.pairwise_append.mp hs).2.2

lemma enumFrom_filter_map_snd {α : Type} (p : α → Bool) (n : ℕ) (l : List α) :
    ((l.enumFrom n).filter (fun x => p x.2)).map Prod.snd = l.filter p := by
  induction l generalizing n with
  | nil => rfl
  | cons a t ih =>
    by_cases hp : p a
    · simp [List.enumFrom, List.filter_cons, hp, ih]
    · simp [List.enumFrom, List.filter_cons, hp, ih]

lemma definedAggs_filter_some {κ : Type} (aggs : List (AggregateResult κ)) (v : ℚ) :
    (definedAggs aggs).filter (fun a => decide (a.mean_value = some v))
      = aggs.filter (fun a => decide (a.mean_value = some v)) := by
  rw [definedAggs, List.filter_filter]
  apply List.filter_congr
  intro a _
  cases h : a.mean_value <;> simp [h]

/-! Claim theorems: top-N selection. -/

/-- C6: nlargest with n = 5 returns at most 5 rows, in descending order of
mean_value; every returned (numeric) mean dominates every non-returned
numeric mean; and the selection is stable: for each value v the returned
rows with mean v are an initial segment of the input rows with mean v, in
input order (ties broken by first-encountered order). -/
theorem c6_topn_sorted_dominant_stable {κ : Type} [DecidableEq κ]
    (aggs : List (AggregateResult κ)) :
    (nlargest 5 aggs).length ≤ 5
    ∧ (nlargest 5 aggs).Pairwise (fun a b => aggVal b ≤ aggVal a)
    ∧ (∀ a ∈ nlargest 5 aggs, ∀ b ∈ aggs, ∀ qa qb : ℚ,
        a.mean_value = some qa → b.mean_value = some qb → b ∉ nlargest 5 aggs → qb ≤ qa)
    ∧ (∀ v : ℚ, ∃ t, aggs.filter (fun a => decide (a.mean_value = some v))
        = (nlargest 5 aggs).filter (fun a => decide (a.mean_value = some v)) ++ t) := by
  refine ⟨?_, ?_, ?_, ?_⟩
  · calc (nlargest 5 aggs).length = ((nlSorted aggs).take 5).length := List.length_map _ _
      _ ≤ 5 := List.length_take_le 5 _
  · have htake : List.Pairwise nlRel ((nlSorted aggs).take 5) :=
      (nlSorted_pairwise aggs).sublist (List.take_sublist 5 _)
    refine List.pairwise_map.mpr (htake.imp ?_)
    intro x y hxy
    rcases hxy with hlt | ⟨heq, _⟩
    · exact le_of_lt hlt
    · exact le_of_eq heq
  · intro a ha b hb qa qb hqa hqb hbnot
    have hbd : b ∈ definedAggs aggs :=
      List.mem_filter.mpr ⟨hb, by rw [hqb]; rfl⟩
    obtain ⟨i, hi⟩ := exists_enumFrom_of_mem hbd 0
    have hib : (i, b) ∈ nlSorted aggs := by
      unfold nlSorted
      exact (List.mem_insertionSort nlRel).mpr hi
    have hib2 : (i, b) ∈ (nlSorted aggs).take 5 ++ (nlSorted aggs).drop 5 := by
      rw [List.take_append_drop]
      exact hib
    rcases List.mem_append.mp hib2 with hmem | hmem
    · exact absurd (List.mem_map_of_mem Prod.snd hmem) hbnot
    · obtain ⟨x, hx, rfl⟩ := List.mem_map.mp ha
      have hrel : nlRel x (i, b) := nlSorted_cross 5 aggs x hx (i, b) hmem
      have hvx : aggVal x.2 = qa := by simp [aggVal, hqa]
      have hvb : aggVal (i, b).2 = qb := by simp [aggVal, hqb]
      rcases hrel with hlt | ⟨heq, _⟩
      · rw [hvx, hvb] at hlt
        exact le_of_lt hlt
      · rw [hvx, hvb] at heq
        exact le_of_eq heq
  · intro v
    set p : AggregateResult κ → Bool := fun a => decide (a.mean_value = some v) with hp
    set q : ℕ × AggregateResult κ → Bool := fun x => p x.2 with hq
    haveI : IsAntisymm (ℕ × AggregateResult κ) (fun x y => x.1 < y.1) :=
      ⟨fun a b h1 h2 => absurd (h1.trans h2) (lt_irrefl _)⟩
    -- the filtered sorted list is sorted by original position
    have henum_pw : List.Pairwise (fun x y => x.1 < y.1) (definedAggs aggs).enum := by
      have h1 : List.Pairwise (· < ·) ((definedAggs aggs).enum.map Prod.fst) := by
        rw [List.enum_map_fst]
        exact List.pairwise_lt_range _
      exact List.pairwise_map.mp h1
    have hef : List.Pairwise (fun x y => x.1 < y.1) ((definedAggs aggs).enum.filter q) :=
      henum_pw.sublist (List.filter_sublist _)
    have hfil_pw : List.Pairwise nlRel ((nlSorted aggs).filter q) :=
      (nlSorted_pairwise aggs).sublist (List.filter_sublist _)
    have hle : List.Pairwise (fun x y => x.1 ≤ y.1) ((nlSorted aggs).filter q) := by
      refine hfil_pw.imp_of_mem ?_
      intro x y hx hy hxy
      have hxv : x.2.mean_value = some v := by
        have := (List.mem_filter.mp hx).2
        simpa [hq, hp] using this
      have hyv : y.2.mean_value = some v := by
        have := (List.mem_filter.mp hy).2
        simpa [hq, hp] using this
      rcases hxy with hlt | ⟨_, hle'⟩
      · rw [aggVal, aggVal, hxv, hyv] at hlt
        exact absurd hlt (lt_irrefl _)
      · exact hle'
    have hne : List.Pairwise (fun x y => x.1 ≠ y.1) ((nlSorted aggs).filter q) := by
      have hnodup_enum : ((definedAggs aggs).enum.map Prod.fst).Nodup := by
        rw [List.enum_map_fst]
        exact List.nodup_range _
      have hnodup_sorted : ((nlSorted aggs).map Prod.fst).Nodup :=
        (((nlSorted_perm aggs).map Prod.fst).nodup_iff).mpr hnodup_enum
      have hnodup_fil : (((nlSorted aggs).filter q).map Prod.fst).Nodup :=
        hnodup_sorted.sublist ((List.filter_sublist _).map Prod.fst)
      exact List.pairwise_map.mp hnodup_fil
    have hlt_pw : List.Pairwise (fun x y => x.1 < y.1) ((nlSorted aggs).filter q) :=
      (hle.and hne).imp (fun h => lt_of_le_of_ne h.1 h.2)
    have heq : (nlSorted aggs).filter q = (definedAggs aggs).enum.filter q :=
      List.eq_of_perm_of_sorted ((nlSorted_perm aggs).filter q) hlt_pw hef
    -- assemble the initial-segment decomposition
    refine ⟨((nlSorted aggs).drop 5 |>.filter q).map Prod.snd, ?_⟩
    have hsplit : (nlSorted aggs).filter q
        = ((nlSorted aggs).take 5).filter q ++ ((nlSorted aggs).drop 5).filter q := by
      rw [← List.filter_append, List.take_append_drop]
    have hres : (nlargest 5 aggs).filter p
        = (((nlSorted aggs).take 5).filter q).map Prod.snd := by
      rw [nlargest, List.filter_map]
      rfl
    calc aggs.filter p
        = (definedAggs aggs).filter p := (definedAggs_filter_some aggs v).symm
      _ = ((definedAggs aggs).enum.filter q).map Prod.snd :=
          (enumFrom_filter_map_snd p 0 (definedAggs aggs)).symm
      _ = ((nlSorted aggs).filter q).map Prod.snd := by rw [heq]
      _ = (((nlSorted aggs).take 5).filter q).map Prod.snd
            ++ (((nlSorted aggs).drop 5).filter q).map Prod.snd := by
          rw [hsplit, List.map_append]
      _ = (nlargest 5 aggs).filter p
            ++ (((nlSorted aggs).drop 5).filter q).map Prod.snd := by rw [hres]

/-- Aggregates used to instantiate the top-N claim, with a tie at 50. -/
def aggsSample : List (AggregateResult String) :=
  [⟨"A", some 10⟩, ⟨"B", some 50⟩, ⟨"C", none⟩, ⟨"D", some 50⟩,
    ⟨"E", some 1⟩, ⟨"F", some 7⟩, ⟨"G", some 2⟩]

theorem c6_topn_sorted_dominant_stable_witness :
    (⟨"G", some 2⟩ : AggregateResult String) ∈ nlargest 5 aggsSample
    ∧ (⟨"E", some 1⟩ : AggregateResult String) ∈ aggsSample
    ∧ (⟨"E", some 1⟩ : AggregateResult String) ∉ nlargest 5 aggsSample
    ∧ (1 : ℚ) ≤ 2 :=
  ⟨by decide, by decide, by decide,
    (c6_topn_sorted_dominant_stable aggsSample).2.2.1 ⟨"G", some 2⟩ (by decide)
      ⟨"E", some 1⟩ (by decide) 2 1 (by decide) (by decide) (by decide)⟩

/-! Claim theorems: forecaster. -/

/-- C2: with at least two distinct years, forecast returns exactly one point
per requested future year, in the order requested, valued m*year + b with no
clamping, where (m, b) is the ordinary least-squares fit (it minimizes the
sum of squared residuals over all candidate lines); on the collinear series
(2018, 20), (2019, 22), (2020, 24) the forecasts for [2025, 2030] are
exactly 34 and 44. -/
theorem c2_forecast_is_ols :
    (∀ (pts : List (ℤ × ℚ)) (futureYears : List ℤ), 2 ≤ distinctYearCount pts →
        forecast pts futureYears =
          .ok (futureYears.map (fun yr => (yr, olsSlope pts * (yr : ℚ) + olsIntercept pts)))
        ∧ ∀ mp bp : ℚ, SSE (olsSlope pts) (olsIntercept pts) pts ≤ SSE mp bp pts)
    ∧ forecast [(2018, 20), (2019, 22), (2020, 24)] [2025, 2030] =
        .ok [(2025, 34), (2030, 44)] := by
  constructor
  · intro pts futureYears h2
    constructor
    · rw [forecast, polyfit1_full_rank h2]
      rfl
    · exact fun mp bp => ols_argmin h2 mp bp
  · have h2 : 2 ≤ distinctYearCount [((2018 : ℤ), (20 : ℚ)), (2019, 22), (2020, 24)] := by
      decide
    simp [forecast, polyfit1, if_pos h2, Except.map]
    norm_num [olsSlope, olsIntercept, Sx, Sy, Sxx, Sxy, nPts]

theorem c2_forecast_is_ols_witness :
    2 ≤ distinctYearCount [((2018 : ℤ), (20 : ℚ)), (2019, 22), (2020, 24)]
    ∧ forecast [((2018 : ℤ), (20 : ℚ)), (2019, 22), (2020, 24)] [2025, 2030] =
        .ok ([2025, 2030].map (fun yr =>
          (yr, olsSlope [((2018 : ℤ), (20 : ℚ)), (2019, 22), (2020, 24)] * (yr : ℚ)
            + olsIntercept [((2018 : ℤ), (20 : ℚ)), (2019, 22), (2020, 24)])))
    ∧ SSE (olsSlope [((2018 : ℤ), (20 : ℚ)), (2019, 22), (2020, 24)])
        (olsIntercept [((2018 : ℤ), (20 : ℚ)), (2019, 22), (2020, 24)])
        [((2018 : ℤ), (20 : ℚ)), (2019, 22), (2020, 24)]
      ≤ SSE 0 0 [((2018 : ℤ), (20 : ℚ)), (2019, 22), (2020, 24)] :=
  ⟨by decide,
    (c2_forecast_is_ols.1 [((2018 : ℤ), (20 : ℚ)), (2019, 22), (2020, 24)] [2025, 2030]
      (by decide)).1,
    (c2_forecast_is_ols.1 [((2018 : ℤ), (20 : ℚ)), (2019, 22), (2020, 24)] [2025, 2030]
      (by decide)).2 0 0⟩

/-- C4 fails on the code: on the single-point series (2020, 5) the code does
not fail at all - np.polyfit emits only a RankWarning and returns the
minimum-norm least-squares solution, so forecast produces a value for each
requested year (4045/808 for 2025 and 2025/404 for 2030). -/
theorem c4_counterexample :
    forecast [((2020 : ℤ), (5 : ℚ))] [2025, 2030] =
      .ok [(2025, 4045 / 808), (2030, 2025 / 404)] := by
  have h2 : ¬ 2 ≤ distinctYearCount [((2020 : ℤ), (5 : ℚ))] := by decide
  simp [forecast, polyfit1, if_neg h2, Except.map]
  norm_num [Sy, nPts]

/-- C4 amended: a series with fewer than 2 distinct years does not make
forecast fail with an error: for a non-empty series whose points all share
one non-zero year x, np.polyfit returns the minimum-norm least-squares
solution (slope ybar/(2x), intercept ybar/2) and one forecast point per
requested year is still produced; only an empty series fails, with a
TypeError (not an InsufficientDataError, which exists nowhere in the code). -/
theorem c4_amended_no_failure :
    (∀ (pts : List (ℤ × ℚ)) (x : ℤ) (futureYears : List ℤ),
        pts ≠ [] → (∀ p ∈ pts, p.1 = x) → x ≠ 0 →
        forecast pts futureYears =
          .ok (futureYears.map (fun yr =>
            (yr, (Sy pts / nPts pts) / (2 * (x : ℚ)) * (yr : ℚ) + (Sy pts / nPts pts) / 2))))
    ∧ (∀ futureYears, forecast [] futureYears = .error .emptyVector) := by
  constructor
  · intro pts x futureYears hne hall hx
    cases pts with
    | nil => exact absurd rfl hne
    | cons p t =>
      have hdy : distinctYearCount (p :: t) = 1 := by
        rw [distinctYearCount, dedup_const (l := (p :: t).map Prod.fst) (x := x) (by simp)]
        · rfl
        · intro y hy
          obtain ⟨q, hq, rfl⟩ := List.mem_map.mp hy
          exact hall q hq
      have h2 : ¬ 2 ≤ distinctYearCount (p :: t) := by
        rw [hdy]
        decide
      have hp1 : p.1 = x := hall p (List.mem_cons_self p t)
      rw [forecast, polyfit1, if_neg h2, if_neg (by rw [hp1]; exact hx), hp1]
      rfl
  · intro futureYears
    rfl

theorem c4_amended_no_failure_witness :
    ([((2020 : ℤ), (5 : ℚ))] ≠ [] ∧ (∀ p ∈ [((2020 : ℤ), (5 : ℚ))], p.1 = 2020)
        ∧ (2020 : ℤ) ≠ 0)
    ∧ forecast [((2020 : ℤ), (5 : ℚ))] [2025, 2030] =
        .ok ([2025, 2030].map (fun yr =>
          (yr, (Sy [((2020 : ℤ), (5 : ℚ))] / nPts [((2020 : ℤ), (5 : ℚ))]) / (2 * (2020 : ℚ))
              * (yr : ℚ)
            + (Sy [((2020 : ℤ), (5 : ℚ))] / nPts [((2020 : ℤ), (5 : ℚ))]) / 2)))
    ∧ forecast [] [2025, 2030] = .error .emptyVector :=
  ⟨⟨by decide, by decide, by decide⟩,
    c4_amended_no_failure.1 [((2020 : ℤ), (5 : ℚ))] 2020 [2025, 2030]
      (by decide) (by decide) (by decide),
    c4_amended_no_failure.2 [2025, 2030]⟩

/-- C7 fails on the code: the per-sex loop has no error isolation.  When the
Male series is empty (np.polyfit raises), the whole loop aborts and the
valid Female series produces nothing - and symmetrically. -/
theorem c7_counterexample :
    forecastLoop [2025, 2030]
        [("Male", []), ("Female", [(2018, some 20), (2019, some 22)])]
      = .error .emptyVector
    ∧ forecastLoop [2025, 2030]
        [("Male", [(2018, some 20), (2019, some 22)]), ("Female", [])]
      = .error .emptyVector :=
  ⟨by decide, by decide⟩

/-- C7 amended: per-series success and failure are not independent: an error
while fitting the series of either sex aborts the whole per-sex computation, and
no forecast point is produced for the other (even successfully fitted)
series. -/
theorem c7_amended_error_aborts_all (fy : List ℤ) (mPts fPts : List (ℤ × Option ℚ))
    (e : PolyfitError) :
    (polyfitOpt mPts = .error e →
        forecastLoop fy [("Male", mPts), ("Female", fPts)] = .error e)
    ∧ (∀ mb : ℚ × ℚ, polyfitOpt mPts = .ok mb → polyfitOpt fPts = .error e →
        forecastLoop fy [("Male", mPts), ("Female", fPts)] = .error e) := by
  constructor
  · intro h
    simp only [forecastLoop, h]
    rfl
  · intro mb h1 h2
    simp only [forecastLoop, h1, h2]
    rfl

theorem c7_amended_error_aborts_all_witness :
    polyfitOpt ([] : List (ℤ × Option ℚ)) = .error .emptyVector
    ∧ forecastLoop [2025, 2030]
        [("Male", []), ("Female", [(2018, some 20), (2019, some 22)])]
      = .error .emptyVector
    ∧ polyfitOpt [((2018 : ℤ), some (20 : ℚ)), (2019, some 22)]
        = .ok (olsSlope [(2018, 20), (2019, 22)], olsIntercept [(2018, 20), (2019, 22)])
    ∧ forecastLoop [2025, 2030]
        [("Male", [(2018, some 20), (2019, some 22)]), ("Female", [])]
      = .error .emptyVector := by
  have hok : polyfitOpt [((2018 : ℤ), some (20 : ℚ)), (2019, some 22)]
      = .ok (olsSlope [(2018, 20), (2019, 22)], olsIntercept [(2018, 20), (2019, 22)]) := by
    show polyfit1 [(2018, 20), (2019, 22)] = _
    exact polyfit1_full_rank (by decide)
  refine ⟨by decide, ?_, hok, ?_⟩
  · exact (c7_amended_error_aborts_all [2025, 2030] []
      [(2018, some 20), (2019, some 22)] .emptyVector).1 (by decide)
  · exact (c7_amended_error_aborts_all [2025, 2030]
      [(2018, some 20), (2019, some 22)] [] .emptyVector).2 _ hok (by decide)

/-- C9: the map aggregate is computed over the whole mortality dataset; it
does not depend on which country is selected - a noninterference property of
the assembler. -/
theorem c9_map_df_country_independent (dfTob dfMor : List NormalizedRecord)
    (c1 c2 : String) :
    (assemble c1 dfTob dfMor).map_df = (assemble c2 dfTob dfMor).map_df := rfl

end TobaccoApp
